import Mathlib

/-!
Shallow embedding of the Midnight bulletin-board / voting-board demo client
(`examples/bboard/api`, `examples/bboard/bboard-cli`, `examples/extra/bboard-cli`,
`examples/bboard/contract/src/witnesses.ts`, common types in the unnamed parts).

Conventions of the embedding:
* byte arrays (`Uint8Array`) are `List Nat`;
* TypeScript `bigint` is `Int`;
* `null`/`undefined`/absent is `Option.none`;
* the entropy source behind `crypto.getRandomValues` is an injected function
  `Nat → Nat` giving the byte at each index;
* external collaborators (the compiled contract's `ledger` decoder and
  `pureCircuits`, rxjs, the providers) are either injected as parameters or,
  where a claim depends on their behaviour, modelled explicitly from the spec
  with a doc comment saying so;
* promises/streams become explicit event lists; `firstValueFrom` of a stream
  that never emits a passing value is `Option.none`.
-/

namespace BBoard

/-! ## Data model -/

/-- `BBoardPrivateState` from `witnesses.ts`: a record holding one secret key. -/
structure BBoardPrivateState where
  secretKey : List Nat
deriving DecidableEq, Repr

/-- `createBBoardPrivateState` from `witnesses.ts`. -/
def createBBoardPrivateState (secretKey : List Nat) : BBoardPrivateState :=
  { secretKey := secretKey }

/-- The voting contract's `Ledger` projection (fields read by the client code in
`examples/bboard`): three restricted counters plus two commitment/nullifier
collections kept opaque. -/
structure Ledger where
  restrictedCounter1 : Int
  restrictedCounter2 : Int
  restrictedCounter3 : Int
  authorizedCommitments : List (List Nat)
  authorizedNullifiers : List (List Nat)
deriving DecidableEq, Repr

/-- `BBoardDerivedState` from the common types (unnamed part_002): only the
three restricted counters. -/
structure BBoardDerivedState where
  restrictedCounter1 : Int
  restrictedCounter2 : Int
  restrictedCounter3 : Int
deriving DecidableEq, Repr

/-! ## Private state store

The level private-state provider is external; per the spec (§4.2) it is a keyed
upsert store, `get` returning absent for a missing key and `put` being a
durable last-writer-wins upsert.  We model it as an association list. -/

/-- The private-state store contents: key ↦ record, last writer wins. -/
def PSStore : Type := List (String × BBoardPrivateState)

/-- `privateStateProvider.get`: absent keys yield `none`, never an error. -/
def psGet (st : PSStore) (k : String) : Option BBoardPrivateState :=
  (List.find? (fun e => e.1 = k) st).map (fun e => e.2)

/-- `privateStateProvider.put`: durable upsert, last write wins. -/
def psPut (st : PSStore) (k : String) (v : BBoardPrivateState) : PSStore :=
  (k, v) :: List.filter (fun e => ¬ (e.1 = k)) st

/-! ## utils.randomBytes and BBoardAPI.getPrivateState -/

/-- `utils.randomBytes(length)` from `examples/questions/api/src/utils`:
a buffer of `length` bytes drawn from the injected entropy source. -/
def randomBytes (entropy : Nat → Nat) (length : Nat) : List Nat :=
  (List.range length).map entropy

/-- `BBoardAPI.getPrivateState` from `examples/bboard/api/src/index.ts`:
read the record under key `bboardPrivateState`; if absent, create a fresh
private state from 32 random bytes (`existing ?? createBBoardPrivateState(randomBytes(32))`). -/
def getPrivateState (st : PSStore) (entropy : Nat → Nat) : BBoardPrivateState :=
  (psGet st "bboardPrivateState").getD (createBBoardPrivateState (randomBytes entropy 32))

/-- `BBoardAPI.deploy` passes `await BBoardAPI.getPrivateState(providers)` to
`deployContract` as `initialPrivateState`. -/
def deployInitialPrivateState (st : PSStore) (entropy : Nat → Nat) : BBoardPrivateState :=
  getPrivateState st entropy

/-- `BBoardAPI.join` passes `await BBoardAPI.getPrivateState(providers)` to
`findDeployedContract` as `initialPrivateState`. -/
def joinInitialPrivateState (st : PSStore) (entropy : Nat → Nat) : BBoardPrivateState :=
  getPrivateState st entropy

/-! ## Deployment (external helper modelled from the spec) -/

/-- Outcome of submitting the deployment transaction, injected by the
environment: either the assigned contract address or a `DeploymentError`. -/
def DeployTxOutcome : Type := Except String String

/-- Modelled from the spec: `deployContract` of `@midnight-ntwrk/midnight-js-contracts`
is not under `src/`; per the spec (§4.3) it persists the supplied
`initialPrivateState` under the private-state key, and "fails with
`DeploymentError` on transaction rejection or provider failure; the
PrivateState is still persisted even if deployment fails".  The transaction
outcome itself is injected. -/
def deployContract (st : PSStore) (privateStateKey : String)
    (initialPrivateState : BBoardPrivateState) (txOutcome : DeployTxOutcome) :
    PSStore × DeployTxOutcome :=
  (psPut st privateStateKey initialPrivateState, txOutcome)

/-- `BBoardAPI.deploy`, restricted to its private-state effects: resolve the
initial private state with `getPrivateState`, then run `deployContract` with
`privateStateKey: 'bboardPrivateState'`.  Returns the store after the attempt
and the deployment outcome. -/
def deployRun (st : PSStore) (entropy : Nat → Nat) (txOutcome : DeployTxOutcome) :
    PSStore × DeployTxOutcome :=
  deployContract st "bboardPrivateState" (deployInitialPrivateState st entropy) txOutcome

/-! ## The derived-state projection (BBoardAPI constructor) -/

set_option linter.unusedVariables false in
/-- The result selector of the `combineLatest` in the `BBoardAPI` constructor
(`examples/bboard/api/src/index.ts`).  The two pure circuits are external
collaborators, injected as functions.  The source computes
`pureCircuits.public_key(privateState.secretKey)` and
`pureCircuits.nullifier(privateState.secretKey)` into local bindings and then
returns only the three ledger counters. -/
def derivedStateProjection (publicKeyCircuit nullifierCircuit : List Nat → List Nat)
    (ledgerState : Ledger) (privateState : BBoardPrivateState) : BBoardDerivedState :=
  let hashedSecretKey := publicKeyCircuit privateState.secretKey
  let nullifySecretKey := nullifierCircuit privateState.secretKey
  { restrictedCounter1 := ledgerState.restrictedCounter1
    restrictedCounter2 := ledgerState.restrictedCounter2
    restrictedCounter3 := ledgerState.restrictedCounter3 }

/-! ## getBBoardLedgerState (bboard-cli) -/

/-- `getBBoardLedgerState` from `examples/bboard/bboard-cli/src/index.ts` (the
`examples/extra` copy is identical): query the public data provider for the
contract state at `contractAddress` and decode it with the contract's `ledger`
reader when present; `contractState != null ? ledger(contractState.data) : null`.
The provider's `queryContractState` and the external `ledger` decoder are
injected. -/
def getBBoardLedgerState (ledgerDecode : List Nat → Ledger)
    (queryContractState : String → Option (List Nat)) (contractAddress : String) :
    Option Ledger :=
  match queryContractState contractAddress with
  | some contractState => some (ledgerDecode contractState)
  | none => none

/-! ## The derived-state pipeline (combineLatest)

`state$` in the `BBoardAPI` constructor is
`combineLatest([ledgerObservable, from(privateStatePromise)], projection)`.
Modelled from the spec: rxjs `combineLatest` is library code not under `src/`;
per the spec (§4.4, §9) it keeps a two-slot holder of the latest value from
each source, emits nothing until both slots are filled, and on any source's
update emits exactly one recomputation from the latest pair.  An arrival on
either source is an event; a run folds the events in arrival order,
collecting emissions. -/

/-- One arrival on one of the two combined sources. -/
inductive SourceEvent where
  | ledgerArrival (l : Ledger)
  | privArrival (p : BBoardPrivateState)
deriving DecidableEq, Repr

/-- The two-slot holder of the latest value seen from each source. -/
structure CombineState where
  lastLedger : Option Ledger
  lastPriv : Option BBoardPrivateState
deriving DecidableEq, Repr

/-- Initial holder: neither source has produced a value. -/
def combineInit : CombineState := { lastLedger := none, lastPriv := none }

/-- One `combineLatest` transition: update the arriving slot, and emit one
combined value exactly when both slots are filled afterwards. -/
def combineStep (projection : Ledger → BBoardPrivateState → BBoardDerivedState)
    (s : CombineState) (e : SourceEvent) : CombineState × List BBoardDerivedState :=
  match e with
  | .ledgerArrival l =>
    let s' : CombineState := { s with lastLedger := some l }
    match s.lastPriv with
    | some p => (s', [projection l p])
    | none => (s', [])
  | .privArrival p =>
    let s' : CombineState := { s with lastPriv := some p }
    match s.lastLedger with
    | some l => (s', [projection l p])
    | none => (s', [])

/-- Fold a sequence of source arrivals through `combineStep`, collecting the
emissions in order. -/
def combineRun (projection : Ledger → BBoardPrivateState → BBoardDerivedState)
    (s : CombineState) : List SourceEvent → CombineState × List BBoardDerivedState
  | [] => (s, [])
  | e :: es =>
    let (s', out) := combineStep projection s e
    let (s'', rest) := combineRun projection s' es
    (s'', out ++ rest)

/-- The session's `state$` pipeline: `combineLatest` from the empty holder with
the constructor's result selector. -/
def statePipeline (publicKeyCircuit nullifierCircuit : List Nat → List Nat)
    (events : List SourceEvent) : List BBoardDerivedState :=
  (combineRun (derivedStateProjection publicKeyCircuit nullifierCircuit) combineInit events).2

/-! ## The funding gate (bboard-cli waitForFunds / buildWalletAndWaitForFunds)

Wallet states arrive on `wallet.state()`; `Rx.throttleTime(10_000)` drops
arrivals inside the throttle window, so the gate observes a subsequence of the
wallet's states.  We model the observed (post-throttle) sequence as a list;
`firstValueFrom` of a stream that never emits is `none`. -/

/-- `nativeToken()` of the external ledger package, kept as an opaque token id. -/
def nativeToken : String := "native"

/-- The wallet's sync progress record, when the wallet reports one. -/
structure SyncProgress where
  synced : Int
  total : Int
deriving DecidableEq, Repr

/-- One value of the wallet's state stream: token balances plus optional sync
progress. -/
structure WalletState where
  balances : List (String × Int)
  syncProgress : Option SyncProgress
deriving DecidableEq, Repr

/-- `state.balances[nativeToken()]`: lookup of the native token's balance,
absent when the wallet holds no entry for it. -/
def lookupNativeBalance (s : WalletState) : Option Int :=
  (List.find? (fun e => e.1 = nativeToken) s.balances).map (fun e => e.2)

/-- The `Rx.filter` predicate of `waitForFunds`:
`synced = state.syncProgress?.synced ?? 0n`, `total = state.syncProgress?.total ?? 1_000n`,
pass iff `total - synced < 100n`. -/
def syncGapOk (s : WalletState) : Bool :=
  let synced := ((s.syncProgress.map SyncProgress.synced).getD 0)
  let total := ((s.syncProgress.map SyncProgress.total).getD 1000)
  total - synced < 100

/-- The `Rx.map` of `waitForFunds`: `s.balances[nativeToken()] ?? 0n`. -/
def mappedBalance (s : WalletState) : Int :=
  (lookupNativeBalance s).getD 0

/-- `waitForFunds` from `examples/bboard/bboard-cli/src/index.ts` (the
`examples/extra` copy is identical): first value of the throttled wallet-state
stream filtered by `syncGapOk`, mapped to the native balance, filtered by
`balance > 0n`. -/
def waitForFunds (states : List WalletState) : Option Int :=
  (((states.filter syncGapOk).map mappedBalance).filter (fun b => 0 < b)).head?

/-- `buildWalletAndWaitForFunds`, restricted to its balance logic: take the
first wallet state; if its native balance is `undefined` or `0n`, fall back to
`waitForFunds` on the observed stream, otherwise return that balance directly. -/
def buildWalletAndWaitForFunds (states : List WalletState) : Option Int :=
  match states with
  | [] => none
  | s0 :: _ =>
    match lookupNativeBalance s0 with
    | none => waitForFunds states
    | some balance => if balance = 0 then waitForFunds states else some balance

/-! ## Menu dispatch (the interactive main loops) -/

/-- What one iteration of a menu loop does with the choice the user typed:
leave the loop, run one handled action and continue, or report an invalid
choice and continue.  Only `exitLoop` leaves the loop. -/
inductive MenuStep where
  | exitLoop
  | handled (action : String)
  | invalid (choice : String)
deriving DecidableEq, Repr

/-- The `switch (choice)` of `mainLoop` in `examples/bboard/bboard-cli`
(the voting CLI): cases '1'–'6' run actions, everything else is the `default`
branch, which logs `Invalid choice` and continues; no case returns. -/
def votingMainLoopStep (choice : String) : MenuStep :=
  match choice with
  | "1" => .handled "add_authority"
  | "2" => .handled "increment1"
  | "3" => .handled "increment2"
  | "4" => .handled "increment3"
  | "5" => .handled "displayLedgerState"
  | "6" => .handled "displayPrivateState"
  | c => .invalid c

/-- The numbered options displayed by `MAIN_LOOP_QUESTION` in the voting CLI
(note the displayed list skips 7 and offers `8. Exit`). -/
def votingMenuListedOptions : List String := ["1", "2", "3", "4", "5", "6", "8"]

/-- The option the voting CLI's menu text labels `Exit`. -/
def votingMenuExitOption : String := "8"

/-- The `switch (choice)` of `mainLoop` in `examples/extra/bboard-cli`: cases
'1'–'5' run actions, case '6' returns from the loop, everything else is the
`default` branch, which logs `Invalid choice` and continues. -/
def extraMainLoopStep (choice : String) : MenuStep :=
  match choice with
  | "1" => .handled "post"
  | "2" => .handled "takeDown"
  | "3" => .handled "displayLedgerState"
  | "4" => .handled "displayPrivateState"
  | "5" => .handled "displayDerivedState"
  | "6" => .exitLoop
  | c => .invalid c

/-- The numbered options displayed by `MAIN_LOOP_QUESTION` in the extra CLI. -/
def extraMenuListedOptions : List String := ["1", "2", "3", "4", "5", "6"]

/-- The option the extra CLI's menu text labels `Exit`. -/
def extraMenuExitOption : String := "6"

/-! ## The state subscription of mainLoop and its teardown

`mainLoop` subscribes `stateObserver` (whose `next` writes the loop's
`currentState` cell) to `bboardApi.state$`, runs the menu loop inside `try`,
and unsubscribes in `finally`.  Modelled from the spec: rxjs
`Subscription.unsubscribe` is library code not under `src/`; per the spec
(§4.4, §8) a cancelled subscription delivers nothing further to its observer,
even if the source keeps producing. -/

/-- The observer side of the loop's subscription: the loop's mutable
`currentState` cell together with the subscription's closed flag. -/
structure ObserverState where
  currentState : Option BBoardDerivedState
  closed : Bool
deriving DecidableEq, Repr

/-- Observer state at `subscribe` time: no derived state seen yet, open. -/
def observerInit : ObserverState := { currentState := none, closed := false }

/-- `subscription.unsubscribe()`: mark the subscription closed. -/
def unsubscribeObserver (s : ObserverState) : ObserverState :=
  { s with closed := true }

/-- What can happen to the subscription over time: the pipeline emits a
derived state, or the owner cancels. -/
inductive SubEvent where
  | emit (v : BBoardDerivedState)
  | cancel
deriving DecidableEq, Repr

/-- One subscription event: an emission reaches `stateObserver.next` (which
overwrites `currentState`) only while the subscription is open; emissions
after cancellation are dropped and logged nowhere. -/
def observerStep (acc : ObserverState × List BBoardDerivedState) (e : SubEvent) :
    ObserverState × List BBoardDerivedState :=
  match e with
  | .emit v =>
    if acc.1.closed then acc
    else ({ acc.1 with currentState := some v }, acc.2 ++ [v])
  | .cancel => (unsubscribeObserver acc.1, acc.2)

/-- Run a whole event history from `subscribe` time, returning the final
observer state and the list of emissions actually delivered to the observer. -/
def observerRun (events : List SubEvent) : ObserverState × List BBoardDerivedState :=
  events.foldl observerStep (observerInit, [])

/-- The emissions actually delivered to the loop's observer over a history. -/
def deliveredEmissions (events : List SubEvent) : List BBoardDerivedState :=
  (observerRun events).2

/-- How the body of `mainLoop`'s `try` block finishes: a normal return (the
extra CLI's Exit case) or an error escaping (a rejected call, a closed input
interface, …). -/
inductive LoopOutcome where
  | normalReturn
  | errorEscape (message : String)
deriving DecidableEq, Repr

/-- The `try … finally { subscription.unsubscribe(); }` of `mainLoop`: whatever
the outcome of the body, the `finally` block applies `unsubscribeObserver`
before `mainLoop` finishes, and the body's outcome is then propagated. -/
def mainLoopFinally (outcome : LoopOutcome) (s : ObserverState) :
    ObserverState × LoopOutcome :=
  (unsubscribeObserver s, outcome)

/-! ## Teardown of run (bboard-cli)

The `finally` of `run` is, in both CLI copies:

  try { rli.close(); rli.removeAllListeners(); } catch (e) {}
  finally { try { if (wallet !== null) await wallet.close(); } catch (e) {}
            finally { try { if (env !== undefined) { await env.down(); … } } catch (e) {} } }

We embed a small exception semantics for sequencing, `try/catch` and
`try/finally`, and write the block in it.  Each primitive teardown step is
injected with a flag saying whether it throws. -/

/-- A teardown program: primitive steps (which may throw), sequencing,
`try { _ } catch (e) {}` and `try { _ } finally { _ }`. -/
inductive Teardown where
  | step (name : String) (throws : Bool)
  | skip
  | seq (a b : Teardown)
  | tryCatchAll (body : Teardown)
  | tryFinally (body fin : Teardown)
deriving DecidableEq, Repr

/-- Execute a teardown program: the list of primitive steps that actually ran,
in order, and whether an exception escapes the whole program.  A throwing step
aborts the rest of a `seq`; `tryCatchAll` swallows any exception of its body;
`tryFinally` always runs the finaliser and propagates an exception from either
part. -/
def execTeardown : Teardown → List String × Bool
  | .step name throws => ([name], throws)
  | .skip => ([], false)
  | .seq a b =>
    let (la, ea) := execTeardown a
    if ea then (la, true)
    else
      let (lb, eb) := execTeardown b
      (la ++ lb, eb)
  | .tryCatchAll body =>
    let (l, _) := execTeardown body
    (l, false)
  | .tryFinally body fin =>
    let (lb, eb) := execTeardown body
    let (lf, ef) := execTeardown fin
    (lb ++ lf, eb || ef)

/-- The `finally` block of `run`, its shape taken verbatim from the nesting in
`examples/bboard/bboard-cli/src/index.ts` (the `examples/extra` copy is
identical).  `wallet` is `none` when `buildWallet` returned `null`, `env` is
`none` when no Docker environment was passed; the boolean on each resource says
whether its close/down call throws. -/
def runFinallyBlock (rliCloseThrows rliRemoveThrows : Bool)
    (wallet : Option Bool) (env : Option Bool) : Teardown :=
  .tryFinally
    (.tryCatchAll
      (.seq (.step "rli.close" rliCloseThrows)
        (.step "rli.removeAllListeners" rliRemoveThrows)))
    (.tryFinally
      (.tryCatchAll
        (match wallet with
         | some walletCloseThrows => .step "wallet.close" walletCloseThrows
         | none => .skip))
      (.tryCatchAll
        (match env with
         | some envDownThrows => .step "env.down" envDownThrows
         | none => .skip)))

/-! ## Helper lemmas -/

/-- Reading back the key just upserted yields the upserted record. -/
theorem psGet_psPut_same (st : PSStore) (k : String) (v : BBoardPrivateState) :
    psGet (psPut st k v) k = some v := by
  simp [psGet, psPut]

/-- `getPrivateState` on a store holding a record returns that record. -/
theorem getPrivateState_of_psGet_some (st : PSStore) (ps : BBoardPrivateState)
    (entropy : Nat → Nat) (h : psGet st "bboardPrivateState" = some ps) :
    getPrivateState st entropy = ps := by
  simp [getPrivateState, h]

/-- `getPrivateState` on a store with no record creates a fresh private state
from 32 random bytes. -/
theorem getPrivateState_of_psGet_none (st : PSStore) (entropy : Nat → Nat)
    (h : psGet st "bboardPrivateState" = none) :
    getPrivateState st entropy = createBBoardPrivateState (randomBytes entropy 32) := by
  simp [getPrivateState, h]

/-! ## Claims -/

/-- Claim C9: the `DerivedState` emitted by the voting API's pipeline depends
only on the ledger snapshot, not on the private state: for any two private
states paired with the same `LedgerSnapshot`, the projection produces
identical `DerivedState` values (the three restricted counters passed through
unchanged); the hashed secret key and nullifier computed from the private
state are never used in the returned record. -/
theorem projection_ignores_private_state
    (publicKeyCircuit nullifierCircuit : List Nat → List Nat) (l : Ledger)
    (p1 p2 : BBoardPrivateState) :
    derivedStateProjection publicKeyCircuit nullifierCircuit l p1 =
      derivedStateProjection publicKeyCircuit nullifierCircuit l p2 := rfl

/-- Claim C6: whenever the public data provider reports no contract state at
an address (`queryContractState` returns absent), `getBBoardLedgerState`
returns `none` rather than failing — and it does so without ever invoking the
`ledger` decoder, so the "not deployed" case is independent of (and
distinguished from) any decode failure on malformed bytes. -/
theorem ledger_state_none_when_not_deployed
    (ledgerDecode : List Nat → Ledger) (queryContractState : String → Option (List Nat))
    (contractAddress : String) (h : queryContractState contractAddress = none) :
    getBBoardLedgerState ledgerDecode queryContractState contractAddress = none ∧
    ∀ otherDecode : List Nat → Ledger,
      getBBoardLedgerState otherDecode queryContractState contractAddress =
        getBBoardLedgerState ledgerDecode queryContractState contractAddress := by
  refine ⟨?_, ?_⟩ <;> simp [getBBoardLedgerState, h]

/-- Witness for C6 at a provider with no state at the queried address. -/
theorem ledger_state_none_when_not_deployed_witness :
    getBBoardLedgerState (fun _ => Ledger.mk 0 0 0 [] [])
      (fun _ => none) "0xabc" = none :=
  (ledger_state_none_when_not_deployed (fun _ => Ledger.mk 0 0 0 [] [])
    (fun _ => none) "0xabc" rfl).1

/-- Claim C3: when the store already holds a record under
`'bboardPrivateState'`, both `deploy` and `join` pass that existing record to
the contract helper as the session's initial private state, independent of the
entropy source (no new random secret is drawn), so repeated `deploy`/`join`
are idempotent in the key material; a fresh 32-byte secret is created only
when the store returns absent. -/
theorem private_state_reuse_idempotent (st : PSStore) (e1 e2 : Nat → Nat) :
    (∀ ps : BBoardPrivateState, psGet st "bboardPrivateState" = some ps →
      deployInitialPrivateState st e1 = ps ∧ joinInitialPrivateState st e2 = ps) ∧
    (psGet st "bboardPrivateState" = none →
      getPrivateState st e1 = createBBoardPrivateState (randomBytes e1 32) ∧
      (randomBytes e1 32).length = 32) := by
  constructor
  · intro ps h
    exact ⟨getPrivateState_of_psGet_some st ps e1 h, getPrivateState_of_psGet_some st ps e2 h⟩
  · intro h
    exact ⟨getPrivateState_of_psGet_none st e1 h, by simp [randomBytes]⟩

/-- Witness for C3: a store holding the record `⟨[7]⟩` is reused by both
`deploy` and `join` whatever the entropy, and the empty store yields a fresh
32-byte secret. -/
theorem private_state_reuse_idempotent_witness :
    (deployInitialPrivateState [("bboardPrivateState", BBoardPrivateState.mk [7])]
        (fun _ => 1) = BBoardPrivateState.mk [7] ∧
      joinInitialPrivateState [("bboardPrivateState", BBoardPrivateState.mk [7])]
        (fun _ => 2) = BBoardPrivateState.mk [7]) ∧
    getPrivateState [] (fun _ => 3) =
      createBBoardPrivateState (randomBytes (fun _ => 3) 32) :=
  ⟨(private_state_reuse_idempotent [("bboardPrivateState", BBoardPrivateState.mk [7])]
      (fun _ => 1) (fun _ => 2)).1 (BBoardPrivateState.mk [7]) rfl,
    ((private_state_reuse_idempotent [] (fun _ => 3) (fun _ => 3)).2 rfl).1⟩

/-- Claim C1: if `deploy` fails with a `DeploymentError` after generating a
fresh `PrivateState` (because the store had no record under
`'bboardPrivateState'`), the generated state is nevertheless persisted: the
deployment outcome is the error, the store afterwards holds the generated
record, and every subsequent `deploy` or `join` resolves that same secret for
any entropy source instead of generating a new one. -/
theorem failed_deploy_persists_private_state (st : PSStore) (entropy : Nat → Nat)
    (err : String) (h : psGet st "bboardPrivateState" = none) :
    (deployRun st entropy (Except.error err)).2 = Except.error err ∧
    psGet (deployRun st entropy (Except.error err)).1 "bboardPrivateState" =
      some (createBBoardPrivateState (randomBytes entropy 32)) ∧
    ∀ e' : Nat → Nat,
      deployInitialPrivateState (deployRun st entropy (Except.error err)).1 e' =
        createBBoardPrivateState (randomBytes entropy 32) ∧
      joinInitialPrivateState (deployRun st entropy (Except.error err)).1 e' =
        createBBoardPrivateState (randomBytes entropy 32) := by
  have hstore : (deployRun st entropy (Except.error err)).1 =
      psPut st "bboardPrivateState" (createBBoardPrivateState (randomBytes entropy 32)) := by
    simp [deployRun, deployContract, deployInitialPrivateState,
      getPrivateState_of_psGet_none st entropy h]
  have hget : psGet (deployRun st entropy (Except.error err)).1 "bboardPrivateState" =
      some (createBBoardPrivateState (randomBytes entropy 32)) := by
    rw [hstore]; exact psGet_psPut_same st _ _
  refine ⟨rfl, hget, fun e' => ⟨?_, ?_⟩⟩ <;>
    exact getPrivateState_of_psGet_some _ _ e' hget

/-- Witness for C1: on the empty store, a deployment rejected with error
`boom` still leaves the freshly generated private state retrievable. -/
theorem failed_deploy_persists_private_state_witness :
    psGet (deployRun [] (fun _ => 5) (Except.error "boom")).1 "bboardPrivateState" =
      some (createBBoardPrivateState (randomBytes (fun _ => 5) 32)) :=
  (failed_deploy_persists_private_state [] (fun _ => 5) "boom" rfl).2.1

/-- Splitting a `combineLatest` run over an event-list append. -/
theorem combineRun_append (f : Ledger → BBoardPrivateState → BBoardDerivedState)
    (s : CombineState) (es1 es2 : List SourceEvent) :
    combineRun f s (es1 ++ es2) =
      ((combineRun f (combineRun f s es1).1 es2).1,
        (combineRun f s es1).2 ++ (combineRun f (combineRun f s es1).1 es2).2) := by
  induction es1 generalizing s with
  | nil => simp [combineRun]
  | cons e es ih => simp [combineRun, ih]

/-- While no ledger snapshot has arrived, a run whose events are all
private-state arrivals emits nothing and leaves the ledger slot empty. -/
theorem combineRun_no_ledger (f : Ledger → BBoardPrivateState → BBoardDerivedState) :
    ∀ (es : List SourceEvent) (s : CombineState),
      (∀ l, SourceEvent.ledgerArrival l ∉ es) → s.lastLedger = none →
      (combineRun f s es).2 = [] ∧ (combineRun f s es).1.lastLedger = none := by
  intro es
  induction es with
  | nil => intro s _ hs; exact ⟨rfl, hs⟩
  | cons e es ih =>
    intro s hmem hs
    match e with
    | .ledgerArrival l => exact absurd (List.mem_cons_self _ _) (hmem l)
    | .privArrival p =>
      have hmem' : ∀ l, SourceEvent.ledgerArrival l ∉ es := fun l hl =>
        hmem l (List.mem_cons_of_mem _ hl)
      have hstep : combineStep f s (.privArrival p) =
          ({ s with lastPriv := some p }, []) := by
        simp [combineStep, hs]
      have := ih { s with lastPriv := some p } hmem' hs
      simpa [combineRun, hstep] using this

/-- While no private state has arrived, a run whose events are all ledger
arrivals emits nothing and leaves the private slot empty. -/
theorem combineRun_no_priv (f : Ledger → BBoardPrivateState → BBoardDerivedState) :
    ∀ (es : List SourceEvent) (s : CombineState),
      (∀ p, SourceEvent.privArrival p ∉ es) → s.lastPriv = none →
      (combineRun f s es).2 = [] ∧ (combineRun f s es).1.lastPriv = none := by
  intro es
  induction es with
  | nil => intro s _ hs; exact ⟨rfl, hs⟩
  | cons e es ih =>
    intro s hmem hs
    match e with
    | .privArrival p => exact absurd (List.mem_cons_self _ _) (hmem p)
    | .ledgerArrival l =>
      have hmem' : ∀ p, SourceEvent.privArrival p ∉ es := fun p hp =>
        hmem p (List.mem_cons_of_mem _ hp)
      have hstep : combineStep f s (.ledgerArrival l) =
          ({ s with lastLedger := some l }, []) := by
        simp [combineStep, hs]
      have := ih { s with lastLedger := some l } hmem' hs
      simpa [combineRun, hstep] using this

/-- Claim C2: the session's `state$` pipeline has combine-latest semantics:
no `DerivedState` is emitted over any event history in which one of the two
sources has not yet produced a value, and once a private state is in the
holder, each further `LedgerSnapshot` arrival produces exactly one new
emission, computed by pairing that snapshot with the most recently known
private state. -/
theorem pipeline_combine_latest (publicKeyCircuit nullifierCircuit : List Nat → List Nat) :
    (∀ events : List SourceEvent,
      ((∀ l, SourceEvent.ledgerArrival l ∉ events) ∨
        (∀ p, SourceEvent.privArrival p ∉ events)) →
      statePipeline publicKeyCircuit nullifierCircuit events = []) ∧
    (∀ (events : List SourceEvent) (l : Ledger) (p : BBoardPrivateState),
      (combineRun (derivedStateProjection publicKeyCircuit nullifierCircuit)
          combineInit events).1.lastPriv = some p →
      statePipeline publicKeyCircuit nullifierCircuit
          (events ++ [SourceEvent.ledgerArrival l]) =
        statePipeline publicKeyCircuit nullifierCircuit events ++
          [derivedStateProjection publicKeyCircuit nullifierCircuit l p]) := by
  constructor
  · intro events h
    rcases h with h | h
    · exact (combineRun_no_ledger _ events combineInit h rfl).1
    · exact (combineRun_no_priv _ events combineInit h rfl).1
  · intro events l p hp
    have hstep : combineStep (derivedStateProjection publicKeyCircuit nullifierCircuit)
        (combineRun (derivedStateProjection publicKeyCircuit nullifierCircuit)
          combineInit events).1 (.ledgerArrival l) =
        ({ (combineRun (derivedStateProjection publicKeyCircuit nullifierCircuit)
            combineInit events).1 with lastLedger := some l },
          [derivedStateProjection publicKeyCircuit nullifierCircuit l p]) := by
      simp [combineStep, hp]
    simp [statePipeline, combineRun_append, combineRun, hstep]

/-- Witness for C2: a lone private-state arrival emits nothing, and a ledger
arrival right after it emits exactly the one paired derived state. -/
theorem pipeline_combine_latest_witness :
    statePipeline (fun _ => []) (fun _ => [])
        [SourceEvent.privArrival (BBoardPrivateState.mk [1])] = [] ∧
    statePipeline (fun _ => [])
        (fun _ => []) ([SourceEvent.privArrival (BBoardPrivateState.mk [1])] ++
          [SourceEvent.ledgerArrival (Ledger.mk 1 2 3 [] [])]) =
      statePipeline (fun _ => []) (fun _ => [])
          [SourceEvent.privArrival (BBoardPrivateState.mk [1])] ++
        [derivedStateProjection (fun _ => []) (fun _ => []) (Ledger.mk 1 2 3 [] [])
          (BBoardPrivateState.mk [1])] :=
  ⟨(pipeline_combine_latest (fun _ => []) (fun _ => [])).1
      [SourceEvent.privArrival (BBoardPrivateState.mk [1])]
      (Or.inl (fun l hl => by simp at hl)),
    (pipeline_combine_latest (fun _ => []) (fun _ => [])).2
      [SourceEvent.privArrival (BBoardPrivateState.mk [1])]
      (Ledger.mk 1 2 3 [] []) (BBoardPrivateState.mk [1]) rfl⟩

/-- Claim C4 as stated is false: `buildWalletAndWaitForFunds` returns the
wallet's initial balance without checking the sync condition.  On a wallet
whose very first state holds 5 native tokens but reports no sync progress
(sync filter fails), the gate returns the balance 5 anyway. -/
theorem funding_gate_counterexample :
    buildWalletAndWaitForFunds [WalletState.mk [(nativeToken, 5)] none] = some 5 ∧
    syncGapOk (WalletState.mk [(nativeToken, 5)] none) = false := by
  constructor <;> rfl

/-- `waitForFunds` is `firstValueFrom` of the piped stream: it resolves to the
mapped balance of the first state passing both filters, if any. -/
theorem waitForFunds_eq_find (states : List WalletState) :
    waitForFunds states =
      (states.find? (fun s => syncGapOk s && decide (0 < mappedBalance s))).map
        mappedBalance := by
  induction states with
  | nil => rfl
  | cons s rest ih =>
    by_cases hp : syncGapOk s = true
    · by_cases hq : (0 : Int) < mappedBalance s
      · simp [waitForFunds, List.find?, hp, hq]
      · have : waitForFunds (s :: rest) = waitForFunds rest := by
          simp [waitForFunds, hp, hq]
        rw [this, ih]
        simp [List.find?, hp, hq]
    · have : waitForFunds (s :: rest) = waitForFunds rest := by
        simp [waitForFunds, hp]
      rw [this, ih]
      simp [List.find?, hp]

/-- Claim C4, amended: `waitForFunds` resolves to the mapped balance of the
first wallet state satisfying both the sync-gap condition and positivity —
returned exactly once, and never from a state failing either condition; but
`buildWalletAndWaitForFunds` consults `waitForFunds` (and hence the sync
condition) only when the first wallet state's native balance is absent or
zero — any nonzero initial balance is returned directly. -/
theorem funding_gate_conditions (states : List WalletState) :
    (waitForFunds states =
      (states.find? (fun s => syncGapOk s && decide (0 < mappedBalance s))).map
        mappedBalance) ∧
    (∀ b : Int, waitForFunds states = some b →
      ∃ s, s ∈ states ∧ syncGapOk s = true ∧ 0 < mappedBalance s ∧
        mappedBalance s = b) ∧
    (∀ (s0 : WalletState) (rest : List WalletState), states = s0 :: rest →
      ((lookupNativeBalance s0 = none ∨ lookupNativeBalance s0 = some 0) →
        buildWalletAndWaitForFunds states = waitForFunds states) ∧
      (∀ b : Int, lookupNativeBalance s0 = some b → ¬ b = 0 →
        buildWalletAndWaitForFunds states = some b)) := by
  refine ⟨waitForFunds_eq_find states, ?_, ?_⟩
  · intro b hb
    rw [waitForFunds_eq_find states] at hb
    rcases Option.map_eq_some'.mp hb with ⟨s, hfind, hs⟩
    have hpred := List.find?_some hfind
    have hmem := List.mem_of_find?_eq_some hfind
    rcases (Bool.and_eq_true _ _).mp hpred with ⟨hgap, hpos⟩
    exact ⟨s, hmem, hgap, of_decide_eq_true hpos, hs⟩
  · intro s0 rest hst
    subst hst
    constructor
    · intro hbal
      rcases hbal with h | h <;> simp [buildWalletAndWaitForFunds, h]
    · intro b hb hb0
      simp [buildWalletAndWaitForFunds, hb, hb0]

/-- Witness for the amended C4: a synced wallet state with balance 5 passes the
gate as the first passing state, a zero-balance initial state defers to
`waitForFunds`, and a nonzero initial balance of 7 is returned directly. -/
theorem funding_gate_conditions_witness :
    waitForFunds [WalletState.mk [(nativeToken, 5)] (some (SyncProgress.mk 950 1000))] =
      ([WalletState.mk [(nativeToken, 5)] (some (SyncProgress.mk 950 1000))].find?
          (fun s => syncGapOk s && decide (0 < mappedBalance s))).map mappedBalance ∧
    (∃ s, s ∈ [WalletState.mk [(nativeToken, 5)] (some (SyncProgress.mk 950 1000))] ∧
      syncGapOk s = true ∧ 0 < mappedBalance s ∧ mappedBalance s = 5) ∧
    buildWalletAndWaitForFunds [WalletState.mk [(nativeToken, 0)] none] =
      waitForFunds [WalletState.mk [(nativeToken, 0)] none] ∧
    buildWalletAndWaitForFunds [WalletState.mk [(nativeToken, 7)] none] = some 7 :=
  ⟨(funding_gate_conditions
      [WalletState.mk [(nativeToken, 5)] (some (SyncProgress.mk 950 1000))]).1,
    (funding_gate_conditions
      [WalletState.mk [(nativeToken, 5)] (some (SyncProgress.mk 950 1000))]).2.1 5 rfl,
    ((funding_gate_conditions [WalletState.mk [(nativeToken, 0)] none]).2.2
      (WalletState.mk [(nativeToken, 0)] none) [] rfl).1 (Or.inr rfl),
    ((funding_gate_conditions [WalletState.mk [(nativeToken, 7)] none]).2.2
      (WalletState.mk [(nativeToken, 7)] none) [] rfl).2 7 rfl (by decide)⟩

/-- A wallet state with absent `syncProgress` always fails the sync filter. -/
theorem syncGapOk_of_absent_progress (balances : List (String × Int)) :
    syncGapOk (WalletState.mk balances none) = false := rfl

/-- States that all lack sync progress are all removed by the sync filter. -/
theorem filter_syncGapOk_of_absent (sts : List WalletState)
    (h : ∀ s ∈ sts, s.syncProgress = none) : sts.filter syncGapOk = [] := by
  induction sts with
  | nil => rfl
  | cons s rest ih =>
    rcases s with ⟨bal, sp⟩
    have hsp : sp = none := h ⟨bal, sp⟩ (List.mem_cons_self _ _)
    subst hsp
    have hrest : ∀ s ∈ rest, s.syncProgress = none := fun s hs =>
      h s (List.mem_cons_of_mem _ hs)
    simpa [List.filter, syncGapOk_of_absent_progress] using ih hrest

/-- Claim C10: when `syncProgress` is entirely absent, the funding gate's
filter defaults the synced count to 0 and the total to 1000, the gap condition
`total - synced < 100` is false, and the state is filtered out — so a wallet
that never reports sync progress can never pass the gate (and the defaulted
accesses are total, never failing). -/
theorem absent_sync_progress_never_passes (states : List WalletState)
    (balances : List (String × Int)) :
    ((WalletState.mk balances none).syncProgress.map SyncProgress.synced).getD 0 = 0 ∧
    ((WalletState.mk balances none).syncProgress.map SyncProgress.total).getD 1000 = 1000 ∧
    syncGapOk (WalletState.mk balances none) = false ∧
    ((∀ s ∈ states, s.syncProgress = none) → waitForFunds states = none) := by
  refine ⟨rfl, rfl, rfl, fun h => ?_⟩
  simp [waitForFunds, filter_syncGapOk_of_absent states h]

/-- Witness for C10: a wallet with funds but no sync progress never passes. -/
theorem absent_sync_progress_never_passes_witness :
    waitForFunds [WalletState.mk [(nativeToken, 5)] none] = none :=
  (absent_sync_progress_never_passes [WalletState.mk [(nativeToken, 5)] none] []).2.2.2
    (by intro s hs; simp at hs; subst hs; rfl)

/-- Claim C5 names behaviour the voting CLI's code does not have: its menu
text lists `8. Exit`, but the `switch` has no case for `'8'`, so the displayed
Exit option falls into the `default` branch (reported as an invalid choice,
loop continues) and in fact no choice string at all makes the voting main loop
exit; the extra CLI's main loop does exit on its displayed `6. Exit`. -/
theorem voting_exit_option_is_not_handled :
    votingMenuExitOption ∈ votingMenuListedOptions ∧
    votingMainLoopStep votingMenuExitOption = MenuStep.invalid "8" ∧
    votingMainLoopStep votingMenuExitOption ≠ MenuStep.exitLoop ∧
    (∀ c : String, votingMainLoopStep c ≠ MenuStep.exitLoop) ∧
    extraMainLoopStep extraMenuExitOption = MenuStep.exitLoop := by
  refine ⟨by decide, rfl, by decide, fun c => ?_, rfl⟩
  unfold votingMainLoopStep
  split <;> simp

/-- In the extra CLI's main loop, an input outside the listed options is
reported as invalid and the loop continues: it never exits the loop. -/
theorem extra_invalid_input_never_exits (c : String) (h : c ∉ extraMenuListedOptions) :
    extraMainLoopStep c = MenuStep.invalid c := by
  simp only [extraMenuListedOptions, List.mem_cons, not_or] at h
  obtain ⟨h1, h2, h3, h4, h5, h6, -⟩ := h
  unfold extraMainLoopStep
  split
  · exact absurd rfl h1
  · exact absurd rfl h2
  · exact absurd rfl h3
  · exact absurd rfl h4
  · exact absurd rfl h5
  · exact absurd rfl h6
  · rfl

/-- After the subscription is closed, emissions change nothing: they are
neither stored in the loop's state cell nor delivered. -/
theorem observerFold_emits_closed (post : List BBoardDerivedState) :
    ∀ (s : ObserverState) (log : List BBoardDerivedState), s.closed = true →
      List.foldl observerStep (s, log) (post.map SubEvent.emit) = (s, log) := by
  induction post with
  | nil => intro s log _; rfl
  | cons v vs ih =>
    intro s log h
    have hstep : observerStep (s, log) (.emit v) = (s, log) := by
      simp [observerStep, h]
    simpa [hstep] using ih s log h

/-- While the subscription is open, every emission is delivered, in order, and
the subscription stays open. -/
theorem observerFold_emits_open (vs : List BBoardDerivedState) :
    ∀ (s : ObserverState) (log : List BBoardDerivedState), s.closed = false →
      (List.foldl observerStep (s, log) (vs.map SubEvent.emit)).2 = log ++ vs ∧
      (List.foldl observerStep (s, log) (vs.map SubEvent.emit)).1.closed = false := by
  induction vs with
  | nil => intro s log h; exact ⟨by simp, h⟩
  | cons v vs ih =>
    intro s log h
    have hstep : observerStep (s, log) (.emit v) =
        ({ s with currentState := some v }, log ++ [v]) := by
      simp [observerStep, h]
    have := ih { s with currentState := some v } (log ++ [v]) h
    simpa [hstep] using this

/-- Claim C7: `mainLoop`'s `finally` unsubscribes the derived-state
subscription whatever the loop's outcome (normal return or escaping error,
which is then propagated); and once a `cancel` appears in the subscription's
history, none of the later emissions is delivered — in particular a history of
exactly N emissions followed by cancellation and arbitrarily many further
emissions delivers exactly those N values, never an (N+1)th. -/
theorem subscription_cancelled_on_loop_exit :
    (∀ (outcome : LoopOutcome) (s : ObserverState),
      (mainLoopFinally outcome s).1.closed = true ∧
      (mainLoopFinally outcome s).2 = outcome) ∧
    (∀ (pre : List SubEvent) (post : List BBoardDerivedState),
      deliveredEmissions (pre ++ SubEvent.cancel :: post.map SubEvent.emit) =
        deliveredEmissions pre) ∧
    (∀ (vs post : List BBoardDerivedState),
      deliveredEmissions
          (vs.map SubEvent.emit ++ SubEvent.cancel :: post.map SubEvent.emit) = vs) := by
  have hkey : ∀ (pre : List SubEvent) (post : List BBoardDerivedState),
      List.foldl observerStep (observerInit, []) (pre ++ SubEvent.cancel :: post.map SubEvent.emit) =
        (unsubscribeObserver (List.foldl observerStep (observerInit, []) pre).1,
          (List.foldl observerStep (observerInit, []) pre).2) := by
    intro pre post
    rw [List.foldl_append]
    show List.foldl observerStep
        (observerStep (List.foldl observerStep (observerInit, []) pre) SubEvent.cancel)
        (post.map SubEvent.emit) = _
    have hcancel : observerStep (List.foldl observerStep (observerInit, []) pre) SubEvent.cancel =
        (unsubscribeObserver (List.foldl observerStep (observerInit, []) pre).1,
          (List.foldl observerStep (observerInit, []) pre).2) := rfl
    rw [hcancel]
    exact observerFold_emits_closed post _ _ rfl
  refine ⟨fun outcome s => ⟨rfl, rfl⟩, ?_, ?_⟩
  · intro pre post
    show (List.foldl observerStep (observerInit, [])
        (pre ++ SubEvent.cancel :: post.map SubEvent.emit)).2 = _
    rw [hkey pre post]
    rfl
  · intro vs post
    show (List.foldl observerStep (observerInit, [])
        (vs.map SubEvent.emit ++ SubEvent.cancel :: post.map SubEvent.emit)).2 = _
    rw [hkey (vs.map SubEvent.emit) post]
    simpa using (observerFold_emits_open vs observerInit [] rfl).1

/-- The order in which `run` acquires its three resources, each identified by
the name of its teardown step: `createInterface` first, then `dockerEnv.up()`
(when a Docker environment is passed), then `buildWallet`. -/
def runAcquisitionOrder : List String := ["rli.close", "env.down", "wallet.close"]

/-- Claim C8 mislabels the release order: the resource-releasing steps of
`run`'s teardown run as `rli.close`, then `wallet.close`, then `env.down`,
which is not the reverse of the acquisition order (`createInterface`, then
`dockerEnv.up()`, then `buildWallet`) — the input interface is acquired first
and also released first. -/
theorem run_teardown_not_reverse_acquisition :
    (execTeardown (runFinallyBlock false false (some false) (some false))).1.filter
        (fun s => decide (s ∈ runAcquisitionOrder)) =
      ["rli.close", "wallet.close", "env.down"] ∧
    runAcquisitionOrder.reverse = ["wallet.close", "env.down", "rli.close"] ∧
    ¬ (execTeardown (runFinallyBlock false false (some false) (some false))).1.filter
        (fun s => decide (s ∈ runAcquisitionOrder)) = runAcquisitionOrder.reverse := by
  decide

/-- Claim C8 (amended): in the teardown of `run`, the input interface is closed first,
then the wallet handle, then the orchestrated environment, and a throw from
any one teardown step is swallowed so that every later step still runs and no
exception escapes the teardown — for every combination of step failures
(`rli.removeAllListeners` being skipped when `rli.close` throws is within the
same `try`, before any resource-releasing step). -/
theorem run_teardown_order_and_swallowing (b1 b2 w e : Bool) :
    execTeardown (runFinallyBlock b1 b2 (some w) (some e)) =
      ((if b1 then ["rli.close"] else ["rli.close", "rli.removeAllListeners"]) ++
        ["wallet.close", "env.down"], false) := by
  cases b1 <;> cases b2 <;> cases w <;> cases e <;> rfl

end BBoard
